import Mathlib

/-!
Verification of the incremental OpenAlex synchronization script
(`openalex_creation_update.py`): the staleness filter `is_record_updated`,
the query/pager construction `get_query`/`get_pager`, and the orchestrator
`run` with its MongoDB-style upserts and append-only run log.

Shallow embedding conventions:
* Python `datetime` values are `PyDateTime` (7 Nat fields, lexicographic order).
* `datetime.fromisoformat` is modelled over the canonical subset it accepts for
  the strings this program produces and consumes: `YYYY-MM-DD` with an optional
  `THH:MM:SS` time and an optional 1-6 digit fraction; no timezone offsets.
* `datetime.now()` is an explicit parameter `now : PyDateTime`.
* Exceptions are `Except String`; fault injection parameters stand for the
  I/O failures (connection, query construction, page fetch, log insert)
  that the surrounding collaborators can raise.
* MongoDB collections are Lean lists in insertion order; `replace_one` with
  `upsert=True` replaces the first document matching the id filter (reporting
  `updatedExisting` and `modified_count` as Mongo does) or appends a new one.
-/

set_option autoImplicit false

namespace OpenAlexSync

/-- A Python `datetime` value: Python compares datetimes lexicographically on
(year, month, day, hour, minute, second, microsecond). -/
structure PyDateTime where
  year : Nat
  month : Nat
  day : Nat
  hour : Nat
  minute : Nat
  second : Nat
  microsecond : Nat
deriving DecidableEq, Repr

/-- Python datetime strict comparison `a < b` (lexicographic on the fields). -/
def dtLt (a b : PyDateTime) : Bool :=
  if a.year ≠ b.year then a.year < b.year
  else if a.month ≠ b.month then a.month < b.month
  else if a.day ≠ b.day then a.day < b.day
  else if a.hour ≠ b.hour then a.hour < b.hour
  else if a.minute ≠ b.minute then a.minute < b.minute
  else if a.second ≠ b.second then a.second < b.second
  else a.microsecond < b.microsecond

/-- Split a character list on a separator character (like `str.split(sep)`:
always at least one piece, empty pieces preserved). -/
def splitOnChar (sep : Char) : List Char → List (List Char)
  | [] => [[]]
  | c :: cs =>
    let rest := splitOnChar sep cs
    if c = sep then [] :: rest
    else
      match rest with
      | piece :: pieces => (c :: piece) :: pieces
      | [] => [[c]]

/-- Interpret a nonempty all-digit character list as a natural number. -/
def digitsToNat? (cs : List Char) : Option Nat :=
  if cs ≠ [] ∧ cs.all Char.isDigit then
    some (cs.foldl (fun acc c => acc * 10 + (c.toNat - 48)) 0)
  else none

/-- Gregorian leap-year rule, as Python's `datetime` validates dates. -/
def isLeapYear (y : Nat) : Bool :=
  (y % 4 = 0 && ¬ y % 100 = 0) || y % 400 = 0

/-- Number of days in a month, as Python's `datetime` validates dates. -/
def daysInMonth (y m : Nat) : Nat :=
  if m = 2 then (if isLeapYear y then 29 else 28)
  else if m = 4 ∨ m = 6 ∨ m = 9 ∨ m = 11 then 30
  else 31

/-- Parse the `YYYY-MM-DD` date part, with Python's range validation. -/
def parseDate (cs : List Char) : Except String (Nat × Nat × Nat) :=
  match splitOnChar '-' cs with
  | [y, m, d] =>
    if y.length = 4 ∧ m.length = 2 ∧ d.length = 2 then
      match digitsToNat? y, digitsToNat? m, digitsToNat? d with
      | some yn, some mn, some dn =>
        if 1 ≤ yn ∧ yn ≤ 9999 ∧ 1 ≤ mn ∧ mn ≤ 12 ∧ 1 ≤ dn ∧ dn ≤ daysInMonth yn mn then
          Except.ok (yn, mn, dn)
        else Except.error "ValueError: day is out of range"
      | _, _, _ => Except.error "ValueError: invalid digits"
    else Except.error "ValueError: invalid date lengths"
  | _ => Except.error "ValueError: invalid date"

/-- A 1-6 digit fraction of a second, scaled to microseconds as Python does. -/
def microsecondOfFrac? (f : List Char) : Option Nat :=
  if 1 ≤ f.length ∧ f.length ≤ 6 then
    match digitsToNat? f with
    | some n => some (n * 10 ^ (6 - f.length))
    | none => none
  else none

/-- Parse the `HH:MM:SS[.ffffff]` time part, with Python's range validation. -/
def parseTime (cs : List Char) : Except String (Nat × Nat × Nat × Nat) :=
  match splitOnChar ':' cs with
  | [h, m, srest] =>
    if h.length = 2 ∧ m.length = 2 then
      match digitsToNat? h, digitsToNat? m with
      | some hn, some mn =>
        let parsedSec : Except String (Nat × Nat) :=
          match splitOnChar '.' srest with
          | [s] =>
            if s.length = 2 then
              match digitsToNat? s with
              | some sn => Except.ok (sn, 0)
              | none => Except.error "ValueError: invalid seconds"
            else Except.error "ValueError: invalid seconds"
          | [s, f] =>
            if s.length = 2 then
              match digitsToNat? s, microsecondOfFrac? f with
              | some sn, some un => Except.ok (sn, un)
              | _, _ => Except.error "ValueError: invalid fraction"
            else Except.error "ValueError: invalid seconds"
          | _ => Except.error "ValueError: invalid time"
        match parsedSec with
        | Except.error e => Except.error e
        | Except.ok (sn, un) =>
          if hn ≤ 23 ∧ mn ≤ 59 ∧ sn ≤ 59 then Except.ok (hn, mn, sn, un)
          else Except.error "ValueError: time out of range"
      | _, _ => Except.error "ValueError: invalid time digits"
    else Except.error "ValueError: invalid time lengths"
  | _ => Except.error "ValueError: invalid time"

/-- Model of `datetime.fromisoformat` on the canonical strings this program
produces and consumes: a `YYYY-MM-DD` date, optionally followed by
`THH:MM:SS` and an optional fraction; a date-only string gets time zero.
Any other input is a `ValueError`. -/
def fromisoformat (s : String) : Except String PyDateTime :=
  match splitOnChar 'T' s.data with
  | [d] =>
    match parseDate d with
    | Except.error e => Except.error e
    | Except.ok (y, m, dd) => Except.ok ⟨y, m, dd, 0, 0, 0, 0⟩
  | [d, t] =>
    match parseDate d with
    | Except.error e => Except.error e
    | Except.ok (y, m, dd) =>
      match parseTime t with
      | Except.error e => Except.error e
      | Except.ok (h, mi, sec, us) => Except.ok ⟨y, m, dd, h, mi, sec, us⟩
  | _ => Except.error "ValueError: invalid isoformat string"

/-- Left-pad the decimal digits of `n` with zeros to width `w`. -/
def padNum (w n : Nat) : List Char :=
  let ds := Nat.toDigits 10 n
  List.replicate (w - ds.length) '0' ++ ds

/-- Model of `datetime.isoformat()`: `YYYY-MM-DDTHH:MM:SS`, with a
`.ffffff` microsecond suffix exactly when the microsecond is nonzero. -/
def isoformat (d : PyDateTime) : String :=
  String.mk (padNum 4 d.year ++ '-' :: padNum 2 d.month ++ '-' :: padNum 2 d.day
    ++ 'T' :: padNum 2 d.hour ++ ':' :: padNum 2 d.minute ++ ':' :: padNum 2 d.second
    ++ (if d.microsecond = 0 then [] else '.' :: padNum 6 d.microsecond))

/-- A record from the external source: the fields the program reads (`id`,
`created_date`, `updated_date`) plus the rest of the document, carried
verbatim; whole-document equality is decidable. -/
structure Record where
  id : String
  created_date : String
  updated_date : String
  rest : List (String × String)
deriving DecidableEq, Repr

/-- `DEFAULT_DATE` from the source: the fixed epoch watermark used when the
run log is empty. -/
def DEFAULT_DATE : String := "2010-01-01T00:00:00.000000"

/-- `is_record_updated(record, last_update_date=None)` from the source.
A falsy `last_update_date` (absent or empty string) is replaced by
`datetime.now().isoformat()`; then the record's `updated_date`, or failing
that its `created_date`, is compared strictly against the watermark, in
Python's evaluation order (so a parse failure raises at the first string
actually parsed). -/
def is_record_updated (record : Record) (last_update_date : Option String)
    (now : PyDateTime) : Except String Bool :=
  let lud : String :=
    match last_update_date with
    | none => isoformat now
    | some s => if s = "" then isoformat now else s
  match fromisoformat record.updated_date with
  | Except.error e => Except.error e
  | Except.ok u =>
    match fromisoformat lud with
    | Except.error e => Except.error e
    | Except.ok w1 =>
      if dtLt w1 u then Except.ok true
      else
        match fromisoformat record.created_date with
        | Except.error e => Except.error e
        | Except.ok c =>
          match fromisoformat lud with
          | Except.error e => Except.error e
          | Except.ok w2 => Except.ok (dtLt w2 c)

/-- Sampling configuration passed through from `config.json`. -/
structure SampleConfig where
  enabled : Bool
  size : Nat
  seed : Nat
deriving DecidableEq, Repr

/-- An OpenAlex query descriptor: the filter constraints, plus the sampling
constraint when sampling is enabled. -/
structure Query where
  filters : List (String × String)
  sample : Option (Nat × Nat)
deriving DecidableEq, Repr

/-- `get_query(filter_params, sample)` from the source: apply the filters,
then add the sample constraint only when `sample["enabled"]` is true. -/
def get_query (filter_params : List (String × String)) (sample : SampleConfig) : Query :=
  let query : Query := { filters := filter_params, sample := none }
  if sample.enabled then { query with sample := some (sample.size, sample.seed) } else query

/-- The pagination method requested from the pyalex pager: `page` is
offset-based pagination, `cursor` is cursor-based pagination. -/
inductive PaginateMethod where
  | page
  | cursor
deriving DecidableEq, Repr

/-- The pager produced by `get_pager`: the query plus the pagination request
handed to `query.paginate`. -/
structure Pager where
  query : Query
  method : PaginateMethod
  per_page : Nat
deriving DecidableEq, Repr

/-- Pagination configuration passed through from `config.json`. -/
structure PageConfig where
  page_size : Nat
deriving DecidableEq, Repr

/-- `get_pager(query, pagination)` from the source: always
`query.paginate(method="page", per_page=pagination["page_size"])`. -/
def get_pager (query : Query) (pagination : PageConfig) : Pager :=
  { query := query, method := PaginateMethod.page, per_page := pagination.page_size }

/-- One run-log entry in the `meta` collection: the success shape
`{run_date, db_count, new, modified}` or the failure shape `{run_date, error}`. -/
inductive Entry where
  | success (run_date : String) (db_count : Nat) (new : Nat) (modified : Nat)
  | failure (run_date : String) (error : String)
deriving DecidableEq, Repr

/-- The `run_date` field, present in both entry shapes. -/
def Entry.run_date : Entry → String
  | Entry.success d _ _ _ => d
  | Entry.failure d _ => d

/-- The watermark read at run start (lines 115-118 of the source):
`DEFAULT_DATE` when the log is empty, otherwise the `run_date` of the entry
that sorts first by descending `_id`, i.e. the most recently inserted entry. -/
def getLastWatermark (meta : List Entry) : String :=
  match meta.getLast? with
  | none => DEFAULT_DATE
  | some e => e.run_date

/-- The part of a pymongo `replace_one` response the program reads:
`raw_result["updatedExisting"]` and `modified_count`. -/
structure UpdateResult where
  updatedExisting : Bool
  modified_count : Nat
deriving DecidableEq, Repr

/-- `works.replace_one({"id": record["id"]}, record, upsert=True)`:
replace the first stored document whose `id` matches (reporting
`updatedExisting = true`, and `modified_count = 1` exactly when the
replacement actually changed the document), or append the record when no
document matches (`updatedExisting = false`, `modified_count = 0`). -/
def replace_one : List Record → Record → List Record × UpdateResult
  | [], r => ([r], ⟨false, 0⟩)
  | d :: ds, r =>
    if d.id = r.id then (r :: ds, ⟨true, if d = r then 0 else 1⟩)
    else
      let res := replace_one ds r
      (d :: res.1, res.2)

/-- The list comprehension over one page: keep the records for which
`is_record_updated` holds, propagating the first parse error in page order. -/
def filterUpdated (latest : String) (now : PyDateTime) :
    List Record → Except String (List Record)
  | [] => Except.ok []
  | r :: rs =>
    match is_record_updated r (some latest) now with
    | Except.error e => Except.error e
    | Except.ok b =>
      match filterUpdated latest now rs with
      | Except.error e => Except.error e
      | Except.ok rest => Except.ok (if b then r :: rest else rest)

/-- The inner upsert loop over the retained records of one or more pages:
thread the collection state left to right and collect the responses. -/
def applyUpserts (works : List Record) : List Record → List Record × List UpdateResult
  | [] => (works, [])
  | r :: rs =>
    let step := replace_one works r
    let rest := applyUpserts step.1 rs
    (rest.1, step.2 :: rest.2)

/-- The page loop of `run`: each element of `pager` is either a fetched page
or the error raised while fetching it. On any error (fetch or staleness
parse) the loop aborts, reporting the error together with the collection
state reached so far; otherwise it returns the final collection state and
all collected upsert responses. -/
def processPages (latest : String) (now : PyDateTime) :
    List (Except String (List Record)) → List Record → List UpdateResult →
    Except (String × List Record) (List Record × List UpdateResult)
  | [], works, responses => Except.ok (works, responses)
  | Except.error e :: _, works, _ => Except.error (e, works)
  | Except.ok page :: rest, works, responses =>
    match filterUpdated latest now page with
    | Except.error e => Except.error (e, works)
    | Except.ok updated =>
      let step := applyUpserts works updated
      processPages latest now rest step.1 (responses ++ step.2)

/-- The records retained by the staleness filter across the whole page
sequence, in processing order; errors if any page fetch or parse fails. -/
def retainedOfPager (latest : String) (now : PyDateTime) :
    List (Except String (List Record)) → Except String (List Record)
  | [] => Except.ok []
  | Except.error e :: _ => Except.error e
  | Except.ok page :: rest =>
    match filterUpdated latest now page with
    | Except.error e => Except.error e
    | Except.ok updated =>
      match retainedOfPager latest now rest with
      | Except.error e => Except.error e
      | Except.ok more => Except.ok (updated ++ more)

/-- The two persistent collections `run` touches: the target (`works`)
collection and the run-log (`meta`) collection, each in insertion order. -/
structure RunState where
  works : List Record
  meta : List Entry
deriving DecidableEq, Repr

/-- How a call to `run` returned: normally, or with an exception escaping
the function (the broad `except` clause re-raising from inside itself). -/
inductive RunOutcome where
  | completed
  | uncaught (e : String)
deriving DecidableEq, Repr

/-- The `except` block of `run`: insert a failure entry `{run_date, error}`
into the meta collection; if that insert itself fails, the new exception
escapes `run` uncaught and the log is left unchanged. -/
def insertFailureEntry (fault : Option String) (now : PyDateTime) (err : String)
    (works : List Record) (meta : List Entry) : RunState × RunOutcome :=
  match fault with
  | some e2 => (⟨works, meta⟩, RunOutcome.uncaught e2)
  | none => (⟨works, meta ++ [Entry.failure (isoformat now) err]⟩, RunOutcome.completed)

/-- `run(filter_params, pagination, sample, db_name, works_name, meta_name)`
from the source, with its external effects made explicit:

* `connFault`: an exception raised while building the connection or the
  collection handles (lines 108-110), i.e. before the local `meta` is
  bound — the `except` block then raises `UnboundLocalError` itself;
* `queryFault`: an exception raised by query/pager construction or the
  watermark read (lines 112-118), after `meta` is bound;
* `pager`: the page sequence, each page either fetched or failing;
* `metaFault1`/`metaFault2`: whether the first/second `meta.insert_one`
  attempted in this invocation fails;
* `now`: the wall clock, used for `run_date` stamps;
* `st`: the two collections before the invocation. -/
def run (connFault queryFault : Option String)
    (pager : List (Except String (List Record)))
    (metaFault1 metaFault2 : Option String)
    (now : PyDateTime) (st : RunState) : RunState × RunOutcome :=
  match connFault with
  | some _ => (st, RunOutcome.uncaught "UnboundLocalError: meta")
  | none =>
    match queryFault with
    | some e => insertFailureEntry metaFault1 now e st.works st.meta
    | none =>
      let latest := getLastWatermark st.meta
      match processPages latest now pager st.works [] with
      | Except.error (e, works1) => insertFailureEntry metaFault1 now e works1 st.meta
      | Except.ok (works1, responses) =>
        match metaFault1 with
        | some e => insertFailureEntry metaFault2 now e works1 st.meta
        | none =>
          (⟨works1,
            st.meta ++ [Entry.success (isoformat now) works1.length
              (responses.countP (fun res => !res.updatedExisting))
              ((responses.map (fun res => res.modified_count)).sum)]⟩,
           RunOutcome.completed)

/-- The first stored document whose `id` field equals `i` — what the Mongo
filter `{"id": ...}` matches. -/
def firstWithId : List Record → String → Option Record
  | [], _ => none
  | d :: ds, i => if d.id = i then some d else firstWithId ds i

/-- Modelled from the spec: an upsert counts as "new" when no document with
the record's id previously existed. -/
def specIsNew (works : List Record) (r : Record) : Bool :=
  (firstWithId works r.id).isNone

/-- Modelled from the spec: an upsert counts as "modified" when a document
with the record's id existed and its content differed from the record. -/
def specIsModified (works : List Record) (r : Record) : Bool :=
  match firstWithId works r.id with
  | none => false
  | some d => d ≠ r

/-- Modelled from the spec: how many upserts of the trace `rs`, applied in
order starting from collection state `works`, inserted a document that did
not previously exist. -/
def specNewCount : List Record → List Record → Nat
  | _, [] => 0
  | works, r :: rs =>
    (if specIsNew works r then 1 else 0) + specNewCount (replace_one works r).1 rs

/-- Modelled from the spec: how many upserts of the trace `rs`, applied in
order starting from collection state `works`, changed an existing
document's content. -/
def specModifiedCount : List Record → List Record → Nat
  | _, [] => 0
  | works, r :: rs =>
    (if specIsModified works r then 1 else 0) + specModifiedCount (replace_one works r).1 rs

theorem applyUpserts_append (l1 l2 : List Record) : ∀ works : List Record,
    applyUpserts works (l1 ++ l2) =
      ((applyUpserts (applyUpserts works l1).1 l2).1,
       (applyUpserts works l1).2 ++ (applyUpserts (applyUpserts works l1).1 l2).2) := by
  induction l1 with
  | nil => intro works; simp [applyUpserts]
  | cons r rs ih => intro works; simp [applyUpserts, ih]

theorem processPages_ok_of_retained (latest : String) (now : PyDateTime) :
    ∀ (pager : List (Except String (List Record))) (L : List Record),
      retainedOfPager latest now pager = Except.ok L →
      ∀ (works : List Record) (acc : List UpdateResult),
        processPages latest now pager works acc =
          Except.ok ((applyUpserts works L).1, acc ++ (applyUpserts works L).2) := by
  intro pager
  induction pager with
  | nil =>
    intro L h works acc
    simp only [retainedOfPager] at h
    injection h with h
    subst h
    simp [processPages, applyUpserts]
  | cons p rest ih =>
    intro L h works acc
    cases p with
    | error e => simp [retainedOfPager] at h
    | ok page =>
      simp only [retainedOfPager] at h
      cases hf : filterUpdated latest now page with
      | error e => rw [hf] at h; cases h
      | ok updated =>
        rw [hf] at h
        cases hr : retainedOfPager latest now rest with
        | error e => rw [hr] at h; cases h
        | ok more =>
          rw [hr] at h
          injection h with h
          subst h
          simp only [processPages, hf]
          rw [ih more hr]
          simp [applyUpserts_append, List.append_assoc]

theorem processPages_append_error (latest : String) (now : PyDateTime) :
    ∀ (pre : List (Except String (List Record))) (works : List Record)
      (acc : List UpdateResult) (w1 : List Record) (r1 : List UpdateResult),
      processPages latest now pre works acc = Except.ok (w1, r1) →
      ∀ (e : String) (post : List (Except String (List Record))),
        processPages latest now (pre ++ Except.error e :: post) works acc =
          Except.error (e, w1) := by
  intro pre
  induction pre with
  | nil =>
    intro works acc w1 r1 h e post
    simp only [processPages] at h
    injection h with h
    rw [Prod.mk.injEq] at h
    rw [List.nil_append]
    simp [processPages, h.1]
  | cons p rest ih =>
    intro works acc w1 r1 h e post
    cases p with
    | error e0 => simp [processPages] at h
    | ok page =>
      simp only [processPages] at h
      cases hf : filterUpdated latest now page with
      | error e1 => rw [hf] at h; cases h
      | ok updated =>
        rw [hf] at h
        simp only [List.cons_append, processPages, hf]
        exact ih _ _ _ _ h e post

theorem replace_one_updatedExisting (r : Record) : ∀ works : List Record,
    (replace_one works r).2.updatedExisting = !(specIsNew works r) := by
  intro works
  induction works with
  | nil => simp [replace_one, specIsNew, firstWithId]
  | cons d ds ih =>
    by_cases h : d.id = r.id
    · simp [replace_one, specIsNew, firstWithId, h]
    · simp only [replace_one, if_neg h]
      simpa [specIsNew, firstWithId, h] using ih

theorem replace_one_modified_count (r : Record) : ∀ works : List Record,
    (replace_one works r).2.modified_count = if specIsModified works r then 1 else 0 := by
  intro works
  induction works with
  | nil => simp [replace_one, specIsModified, firstWithId]
  | cons d ds ih =>
    by_cases h : d.id = r.id
    · by_cases h2 : d = r <;> simp [replace_one, specIsModified, firstWithId, h, h2]
    · simp only [replace_one, if_neg h]
      simpa [specIsModified, firstWithId, h] using ih

theorem applyUpserts_countNew (L : List Record) : ∀ works : List Record,
    ((applyUpserts works L).2.countP (fun res => !res.updatedExisting)) =
      specNewCount works L := by
  induction L with
  | nil => intro works; simp [applyUpserts, specNewCount]
  | cons r rs ih =>
    intro works
    simp only [applyUpserts, specNewCount, List.countP_cons, ih,
      replace_one_updatedExisting]
    cases h : specIsNew works r <;> simp [h, Nat.add_comm]

theorem applyUpserts_sumModified (L : List Record) : ∀ works : List Record,
    (((applyUpserts works L).2.map (fun res => res.modified_count)).sum) =
      specModifiedCount works L := by
  induction L with
  | nil => intro works; simp [applyUpserts, specModifiedCount]
  | cons r rs ih =>
    intro works
    simp only [applyUpserts, specModifiedCount, List.map_cons, List.sum_cons, ih,
      replace_one_modified_count]

theorem firstWithId_replace_self (r : Record) : ∀ works : List Record,
    firstWithId (replace_one works r).1 r.id = some r := by
  intro works
  induction works with
  | nil => simp [replace_one, firstWithId]
  | cons d ds ih =>
    by_cases h : d.id = r.id
    · simp [replace_one, firstWithId, h]
    · simp only [replace_one, if_neg h]
      simpa [firstWithId, h] using ih

theorem firstWithId_replace_other (r : Record) (i : String) (h : i ≠ r.id) :
    ∀ works : List Record,
      firstWithId (replace_one works r).1 i = firstWithId works i := by
  intro works
  induction works with
  | nil => simp [replace_one, firstWithId, Ne.symm h]
  | cons d ds ih =>
    by_cases hd : d.id = r.id
    · have hri : r.id ≠ i := Ne.symm h
      have hdi : d.id ≠ i := by rw [hd]; exact hri
      simp [replace_one, firstWithId, hd, hri, hdi]
    · by_cases hdi : d.id = i
      · simp [replace_one, firstWithId, hd, hdi, h]
      · simp only [replace_one, if_neg hd]
        simpa [firstWithId, hdi] using ih

theorem firstWithId_applyUpserts_not_mem (L : List Record) : ∀ (works : List Record)
    (i : String), i ∉ L.map Record.id →
      firstWithId (applyUpserts works L).1 i = firstWithId works i := by
  induction L with
  | nil => intro works i _; rfl
  | cons r rs ih =>
    intro works i hi
    simp only [List.map_cons, List.mem_cons] at hi
    push_neg at hi
    simp only [applyUpserts]
    rw [ih (replace_one works r).1 i hi.2]
    exact firstWithId_replace_other r i hi.1 works

theorem firstWithId_applyUpserts_nodup (L : List Record) : ∀ works : List Record,
    (L.map Record.id).Nodup →
      ∀ r ∈ L, firstWithId (applyUpserts works L).1 r.id = some r := by
  induction L with
  | nil => intro works _ r hr; cases hr
  | cons r0 rs ih =>
    intro works hnd r hr
    simp only [List.map_cons, List.nodup_cons] at hnd
    cases hr with
    | head =>
      simp only [applyUpserts]
      rw [firstWithId_applyUpserts_not_mem rs (replace_one works r0).1 r0.id hnd.1]
      exact firstWithId_replace_self r0 works
    | tail _ hmem =>
      simp only [applyUpserts]
      exact ih (replace_one works r0).1 hnd.2 r hmem

theorem replace_one_self (r : Record) : ∀ works : List Record,
    firstWithId works r.id = some r → replace_one works r = (works, ⟨true, 0⟩) := by
  intro works
  induction works with
  | nil => intro h; simp [firstWithId] at h
  | cons d ds ih =>
    intro h
    by_cases hd : d.id = r.id
    · have hdr : d = r := by
        simp only [firstWithId, if_pos hd, Option.some.injEq] at h
        exact h
      subst hdr
      simp [replace_one, hd]
    · simp only [firstWithId, if_neg hd] at h
      simp only [replace_one, if_neg hd]
      rw [ih h]

theorem applyUpserts_fixed (L : List Record) : ∀ works : List Record,
    (∀ r ∈ L, firstWithId works r.id = some r) →
      applyUpserts works L = (works, L.map (fun _ => (⟨true, 0⟩ : UpdateResult))) := by
  induction L with
  | nil => intro works _; rfl
  | cons r rs ih =>
    intro works h
    simp only [applyUpserts, List.map_cons]
    rw [replace_one_self r works (h r (List.mem_cons_self r rs))]
    rw [ih works (fun r0 hr0 => h r0 (List.mem_cons_of_mem r hr0))]

theorem is_record_updated_now_indep (record : Record) (s : String) (h : s ≠ "")
    (now now' : PyDateTime) :
    is_record_updated record (some s) now = is_record_updated record (some s) now' := by
  simp only [is_record_updated]
  simp only [if_neg h]

theorem filterUpdated_now_indep (latest : String) (h : latest ≠ "") (now now' : PyDateTime) :
    ∀ rs : List Record, filterUpdated latest now rs = filterUpdated latest now' rs := by
  intro rs
  induction rs with
  | nil => rfl
  | cons r rs ih =>
    simp only [filterUpdated, is_record_updated_now_indep r latest h now now', ih]

theorem retainedOfPager_now_indep (latest : String) (h : latest ≠ "") (now now' : PyDateTime) :
    ∀ pager : List (Except String (List Record)),
      retainedOfPager latest now pager = retainedOfPager latest now' pager := by
  intro pager
  induction pager with
  | nil => rfl
  | cons p rest ih =>
    cases p with
    | error e => rfl
    | ok page =>
      simp only [retainedOfPager, filterUpdated_now_indep latest h now now' page, ih]

theorem countP_map_const_true (L : List Record) :
    ((L.map (fun _ => (⟨true, 0⟩ : UpdateResult))).countP
      (fun res => !res.updatedExisting)) = 0 := by
  induction L with
  | nil => rfl
  | cons r rs ih => simp [List.countP_cons, ih]

theorem sum_map_const_zero (L : List Record) :
    (((L.map (fun _ => (⟨true, 0⟩ : UpdateResult))).map
      (fun res => res.modified_count)).sum) = 0 := by
  induction L with
  | nil => rfl
  | cons r rs ih => simp [ih]

instance {ε α : Type} [DecidableEq ε] [DecidableEq α] : DecidableEq (Except ε α)
  | Except.error e1, Except.error e2 =>
    if h : e1 = e2 then isTrue (by rw [h]) else isFalse (by intro hh; cases hh; exact h rfl)
  | Except.error _, Except.ok _ => isFalse (by intro hh; cases hh)
  | Except.ok _, Except.error _ => isFalse (by intro hh; cases hh)
  | Except.ok a1, Except.ok a2 =>
    if h : a1 = a2 then isTrue (by rw [h]) else isFalse (by intro hh; cases hh; exact h rfl)

theorem dtLt_irrefl (d : PyDateTime) : dtLt d d = false := by
  simp [dtLt]

theorem fromisoformat_ne_empty {dw : PyDateTime} {w : String}
    (hw : fromisoformat w = Except.ok dw) : w ≠ "" := by
  intro h
  subst h
  simp [fromisoformat, splitOnChar, parseDate] at hw

/-- C2: for a record whose `updated_date` and `created_date` parse and a
parseable watermark, `is_record_updated` returns exactly
`updated_date > watermark ∨ created_date > watermark` under timestamp
ordering, strictly: when both timestamps equal the watermark it is false. -/
theorem c2_staleness_filter_strict (record : Record) (w : String) (now : PyDateTime)
    (du dc dw : PyDateTime)
    (hu : fromisoformat record.updated_date = Except.ok du)
    (hc : fromisoformat record.created_date = Except.ok dc)
    (hw : fromisoformat w = Except.ok dw) :
    is_record_updated record (some w) now = Except.ok (dtLt dw du || dtLt dw dc) ∧
    (du = dw → dc = dw → is_record_updated record (some w) now = Except.ok false) := by
  have hw0 : w ≠ "" := fromisoformat_ne_empty hw
  have hmain : is_record_updated record (some w) now = Except.ok (dtLt dw du || dtLt dw dc) := by
    simp only [is_record_updated]
    rw [if_neg hw0, hu, hw, hc]
    cases h1 : dtLt dw du <;> simp [h1]
  refine ⟨hmain, ?_⟩
  intro h1 h2
  subst h1
  subst h2
  rw [hmain, dtLt_irrefl]
  simp

/-- Witness for C2 at a concrete record and watermark. -/
theorem c2_staleness_filter_strict_witness :
    is_record_updated ⟨"A", "2024-01-01", "2024-01-02", []⟩ (some "2024-01-01")
      ⟨2024, 1, 1, 0, 0, 0, 0⟩ = Except.ok true := by
  have h := (c2_staleness_filter_strict ⟨"A", "2024-01-01", "2024-01-02", []⟩ "2024-01-01"
    ⟨2024, 1, 1, 0, 0, 0, 0⟩ ⟨2024, 1, 2, 0, 0, 0, 0⟩ ⟨2024, 1, 1, 0, 0, 0, 0⟩
    ⟨2024, 1, 1, 0, 0, 0, 0⟩ (by decide) (by decide) (by decide)).1
  rw [h]
  decide

/-- C10: an empty-string watermark behaves exactly like an omitted one —
Python's falsy test replaces both with the current wall-clock time. -/
theorem c10_falsy_watermark (record : Record) (now : PyDateTime) :
    is_record_updated record (some "") now = is_record_updated record none now := rfl

/-- C6: the watermark read at run start is the fixed epoch constant
`2010-01-01T00:00:00.000000` when the run log is empty, and otherwise the
`run_date` of the most recently inserted entry, by insertion order,
whatever entries (and embedded timestamps) precede it. -/
theorem c6_watermark_read (l : List Entry) (e : Entry) :
    getLastWatermark [] = "2010-01-01T00:00:00.000000" ∧
    getLastWatermark (l ++ [e]) = e.run_date := by
  refine ⟨rfl, ?_⟩
  simp [getLastWatermark, List.getLast?_concat]

/-- C9 counterexample: with sampling disabled, `get_pager` still requests
offset-based `page` pagination, not cursor pagination as the claim states. -/
theorem c9_counterexample_sampling_disabled :
    (get_pager (get_query [] ⟨false, 0, 0⟩) ⟨25⟩).method = PaginateMethod.page ∧
    PaginateMethod.page ≠ PaginateMethod.cursor := by
  exact ⟨rfl, by decide⟩

/-- C9 amended: `get_pager` always requests offset-based (`page`) pagination
with the configured page size, for every query — whether or not sampling is
enabled — never cursor pagination. -/
theorem c9_pager_always_page (query : Query) (pagination : PageConfig) :
    get_pager query pagination =
      { query := query, method := PaginateMethod.page, per_page := pagination.page_size } := rfl

/-- C5 counterexample: when building the connection or collection handles
fails (before the local `meta` is bound), the `except` block itself raises
`UnboundLocalError` and the invocation appends no run-log entry at all,
not exactly one. -/
theorem c5_counterexample_connection_failure :
    (run (some "ServerSelectionTimeoutError") none [] none none
      ⟨2024, 6, 1, 0, 0, 0, 0⟩ ⟨[], []⟩).1.meta = [] ∧
    (run (some "ServerSelectionTimeoutError") none [] none none
      ⟨2024, 6, 1, 0, 0, 0, 0⟩ ⟨[], []⟩).2 =
      RunOutcome.uncaught "UnboundLocalError: meta" := ⟨rfl, rfl⟩

/-- C5 amended: an invocation of `run` that binds its collection handles
without error and whose first run-log insert succeeds appends exactly one
run-log entry, whatever else happens (query failure, page-loop failure, or
full success). -/
theorem c5_one_entry_per_run_amended (queryFault : Option String)
    (pager : List (Except String (List Record))) (metaFault2 : Option String)
    (now : PyDateTime) (st : RunState) :
    ∃ entry, (run none queryFault pager none metaFault2 now st).1.meta = st.meta ++ [entry] := by
  cases queryFault with
  | some e => exact ⟨Entry.failure (isoformat now) e, rfl⟩
  | none =>
    cases h : processPages (getLastWatermark st.meta) now pager st.works [] with
    | error p =>
      obtain ⟨e1, w1⟩ := p
      exact ⟨Entry.failure (isoformat now) e1, by simp [run, insertFailureEntry, h]⟩
    | ok p =>
      obtain ⟨w1, resp⟩ := p
      exact ⟨Entry.success (isoformat now) w1.length
        (resp.countP (fun res => !res.updatedExisting))
        ((resp.map (fun res => res.modified_count)).sum), by simp [run, h]⟩

/-- C1: the claim says a Failure run-log entry never advances the watermark.
The code violates this: a failure entry carries a `run_date` and the
watermark read takes the most recent entry of either shape, so after a run
that fails mid-loop the next invocation's watermark is the failed run's
timestamp, not the previous successful run's — and a record updated between
the two (here 2024-03-01) is then filtered out instead of reprocessed. -/
theorem c1_watermark_advanced_by_failed_run :
    getLastWatermark ((run none none [Except.error "TransportError"] none none
        ⟨2024, 6, 1, 0, 0, 0, 0⟩
        ⟨[], [Entry.success "2024-01-01T00:00:00.000000" 5 2 1]⟩).1.meta) =
      "2024-06-01T00:00:00" ∧
    ("2024-06-01T00:00:00" : String) ≠ "2024-01-01T00:00:00.000000" ∧
    is_record_updated ⟨"W1", "2024-03-01", "2024-03-01", []⟩
      (some (getLastWatermark ((run none none [Except.error "TransportError"] none none
        ⟨2024, 6, 1, 0, 0, 0, 0⟩
        ⟨[], [Entry.success "2024-01-01T00:00:00.000000" 5 2 1]⟩).1.meta)))
      ⟨2024, 6, 1, 0, 0, 0, 0⟩ = Except.ok false := by
  refine ⟨rfl, by decide, ?_⟩
  rfl

/-- C3: a run that completes every page without error appends a single
run-log entry of the success shape `{run_date, db_count, new, modified}`,
where `db_count` is the number of documents in the target collection after
the run, `new` counts upserts whose id did not previously exist, `modified`
counts upserts whose prior document existed with different content, and an
upsert identical to the stored document counts toward neither. -/
theorem c3_success_entry_counters (pager : List (Except String (List Record)))
    (now : PyDateTime) (st : RunState) (L : List Record)
    (hL : retainedOfPager (getLastWatermark st.meta) now pager = Except.ok L) :
    (run none none pager none none now st).2 = RunOutcome.completed ∧
    (run none none pager none none now st).1.works = (applyUpserts st.works L).1 ∧
    (run none none pager none none now st).1.meta =
      st.meta ++ [Entry.success (isoformat now) (applyUpserts st.works L).1.length
        (specNewCount st.works L) (specModifiedCount st.works L)] ∧
    (∀ (works : List Record) (r : Record), firstWithId works r.id = some r →
      specIsNew works r = false ∧ specIsModified works r = false) := by
  have hp := processPages_ok_of_retained (getLastWatermark st.meta) now pager L hL st.works []
  rw [List.nil_append] at hp
  refine ⟨?_, ?_, ?_, ?_⟩
  · simp [run, hp]
  · simp [run, hp]
  · simp [run, hp, applyUpserts_countNew, applyUpserts_sumModified]
  · intro works r h
    constructor
    · simp [specIsNew, h]
    · simp [specIsModified, h]

/-- Witness for C3: one page, one fresh record, from empty collections. -/
theorem c3_success_entry_counters_witness :
    (run none none [Except.ok [⟨"A", "2024-01-01", "2024-01-02", []⟩]] none none
      ⟨2024, 6, 1, 0, 0, 0, 0⟩ ⟨[], []⟩).1.meta =
      [Entry.success "2024-06-01T00:00:00" 1 1 0] := by
  have h := (c3_success_entry_counters [Except.ok [⟨"A", "2024-01-01", "2024-01-02", []⟩]]
    ⟨2024, 6, 1, 0, 0, 0, 0⟩ ⟨[], []⟩ [⟨"A", "2024-01-01", "2024-01-02", []⟩]
    (by decide)).2.2.1
  rw [h]
  decide

/-- C4: when a page fetch fails mid-loop, no further pages influence the
outcome, the run log gains exactly one Failure entry `{run_date, error}`
carrying the raised error, no Success entry is written, and every upsert
applied before the failure stays in the target collection. -/
theorem c4_midloop_failure (pre post : List (Except String (List Record))) (e : String)
    (now : PyDateTime) (st : RunState) (w1 : List Record) (resp1 : List UpdateResult)
    (hpre : processPages (getLastWatermark st.meta) now pre st.works [] =
      Except.ok (w1, resp1)) :
    run none none (pre ++ Except.error e :: post) none none now st =
      (⟨w1, st.meta ++ [Entry.failure (isoformat now) e]⟩, RunOutcome.completed) := by
  have hp := processPages_append_error (getLastWatermark st.meta) now pre st.works [] w1
    resp1 hpre e post
  simp [run, hp, insertFailureEntry]

/-- Witness for C4: one clean page, then a transport error, then a page that
is never reached. -/
theorem c4_midloop_failure_witness :
    run none none ([Except.ok [⟨"A", "2024-01-01", "2024-01-02", []⟩]] ++
        Except.error "TransportError" :: [Except.ok [⟨"B", "2024-01-01", "2024-01-03", []⟩]])
      none none ⟨2024, 6, 1, 0, 0, 0, 0⟩ ⟨[], []⟩ =
      (⟨[⟨"A", "2024-01-01", "2024-01-02", []⟩],
        [Entry.failure "2024-06-01T00:00:00" "TransportError"]⟩, RunOutcome.completed) := by
  have h := c4_midloop_failure [Except.ok [⟨"A", "2024-01-01", "2024-01-02", []⟩]]
    [Except.ok [⟨"B", "2024-01-01", "2024-01-03", []⟩]] "TransportError"
    ⟨2024, 6, 1, 0, 0, 0, 0⟩ ⟨[], []⟩ [⟨"A", "2024-01-01", "2024-01-02", []⟩]
    [⟨false, 0⟩] (by decide)
  rw [h]
  decide

/-- C7 counterexample: the claim says a failing run-log append leaves no
entry of either shape. But the Success-entry append sits inside the `try`
block: its failure is caught like any other error and a Failure entry is
inserted instead — here one entry of the failure shape is recorded. -/
theorem c7_counterexample_success_append_fails :
    (run none none [] (some "PersistenceError") none
      ⟨2024, 6, 1, 0, 0, 0, 0⟩ ⟨[], []⟩).1.meta =
      [Entry.failure "2024-06-01T00:00:00" "PersistenceError"] ∧
    (run none none [] (some "PersistenceError") none
      ⟨2024, 6, 1, 0, 0, 0, 0⟩ ⟨[], []⟩).2 = RunOutcome.completed := ⟨rfl, rfl⟩

/-- C7 amended: a failed Success append is caught and converted into a
Failure-entry attempt, which records one Failure entry when it succeeds;
only when the Failure-entry append itself fails (reached from a failed
Success append, a query failure, or a page-loop failure) does the run
terminate uncaught with the run log unchanged for that invocation. -/
theorem c7_append_failure_amended (pager : List (Except String (List Record)))
    (e e2 : String) (mf2 : Option String) (now : PyDateTime) (st : RunState) :
    (∀ (w1 : List Record) (resp1 : List UpdateResult),
      processPages (getLastWatermark st.meta) now pager st.works [] = Except.ok (w1, resp1) →
      run none none pager (some e) none now st =
        (⟨w1, st.meta ++ [Entry.failure (isoformat now) e]⟩, RunOutcome.completed) ∧
      run none none pager (some e) (some e2) now st =
        (⟨w1, st.meta⟩, RunOutcome.uncaught e2)) ∧
    (run none (some e) pager (some e2) mf2 now st = (st, RunOutcome.uncaught e2)) ∧
    (∀ (err : String) (w1 : List Record),
      processPages (getLastWatermark st.meta) now pager st.works [] = Except.error (err, w1) →
      run none none pager (some e2) mf2 now st = (⟨w1, st.meta⟩, RunOutcome.uncaught e2)) := by
  refine ⟨?_, ?_, ?_⟩
  · intro w1 resp1 h
    constructor <;> simp [run, h, insertFailureEntry]
  · simp [run, insertFailureEntry]
  · intro err w1 h
    simp [run, h, insertFailureEntry]

/-- Witness for C7 (amended): the Success append and then the Failure append
both fail, so the exception escapes and the log is unchanged. -/
theorem c7_append_failure_amended_witness :
    run none none [] (some "PersistenceError") (some "PersistenceError2")
      ⟨2024, 6, 1, 0, 0, 0, 0⟩ ⟨[], []⟩ = (⟨[], []⟩, RunOutcome.uncaught "PersistenceError2") := by
  exact ((c7_append_failure_amended [] "PersistenceError" "PersistenceError2" none
    ⟨2024, 6, 1, 0, 0, 0, 0⟩ ⟨[], []⟩).1 [] [] (by decide)).2

/-- C8: running twice against an unchanged source with the watermark
unchanged between runs (and each record appearing once in the page stream),
the second run re-upserts content identical to what the first run stored,
so its Success entry reports `new = 0` and `modified = 0`. -/
theorem c8_second_run_idempotent (pager : List (Except String (List Record)))
    (now1 now2 : PyDateTime) (st0 : RunState) (meta2 : List Entry) (L : List Record)
    (hWne : getLastWatermark st0.meta ≠ "")
    (hL : retainedOfPager (getLastWatermark st0.meta) now1 pager = Except.ok L)
    (hids : (L.map Record.id).Nodup)
    (hm2 : getLastWatermark meta2 = getLastWatermark st0.meta) :
    (run none none pager none none now1 st0).1.works = (applyUpserts st0.works L).1 ∧
    run none none pager none none now2 ⟨(applyUpserts st0.works L).1, meta2⟩ =
      (⟨(applyUpserts st0.works L).1,
        meta2 ++ [Entry.success (isoformat now2) (applyUpserts st0.works L).1.length 0 0]⟩,
       RunOutcome.completed) := by
  have hp1 := processPages_ok_of_retained (getLastWatermark st0.meta) now1 pager L hL st0.works []
  rw [List.nil_append] at hp1
  constructor
  · simp [run, hp1]
  · have hL2 : retainedOfPager (getLastWatermark st0.meta) now2 pager = Except.ok L := by
      rw [← retainedOfPager_now_indep (getLastWatermark st0.meta) hWne now1 now2 pager]
      exact hL
    have hfix : ∀ r ∈ L, firstWithId (applyUpserts st0.works L).1 r.id = some r :=
      firstWithId_applyUpserts_nodup L st0.works hids
    have happ : applyUpserts (applyUpserts st0.works L).1 L =
        ((applyUpserts st0.works L).1, L.map (fun _ => (⟨true, 0⟩ : UpdateResult))) :=
      applyUpserts_fixed L (applyUpserts st0.works L).1 hfix
    have hp2 := processPages_ok_of_retained (getLastWatermark st0.meta) now2 pager L hL2
      (applyUpserts st0.works L).1 []
    rw [List.nil_append, happ] at hp2
    simp [run, hm2, hp2, countP_map_const_true, sum_map_const_zero]

/-- Witness for C8: the second run over the same single-record page, with the
watermark held at the epoch default, reports zero new and zero modified. -/
theorem c8_second_run_idempotent_witness :
    run none none [Except.ok [⟨"A", "2024-01-01", "2024-01-02", []⟩]] none none
      ⟨2024, 7, 1, 0, 0, 0, 0⟩
      ⟨[⟨"A", "2024-01-01", "2024-01-02", []⟩],
       [Entry.success "2010-01-01T00:00:00.000000" 1 1 0]⟩ =
      (⟨[⟨"A", "2024-01-01", "2024-01-02", []⟩],
        [Entry.success "2010-01-01T00:00:00.000000" 1 1 0,
         Entry.success "2024-07-01T00:00:00" 1 0 0]⟩, RunOutcome.completed) := by
  have h := (c8_second_run_idempotent [Except.ok [⟨"A", "2024-01-01", "2024-01-02", []⟩]]
    ⟨2024, 6, 1, 0, 0, 0, 0⟩ ⟨2024, 7, 1, 0, 0, 0, 0⟩ ⟨[], []⟩
    [Entry.success "2010-01-01T00:00:00.000000" 1 1 0]
    [⟨"A", "2024-01-01", "2024-01-02", []⟩]
    (by decide) (by decide) (by decide) (by decide)).2
  exact h

end OpenAlexSync
